import Mathlib

/-!
# Verification of the yjs-pulsar fan-in/fan-out engine

Shallow embedding of the per-document engine of the yjs-pulsar relay:

* `src/server/utils.ts` — the `YDoc` actor (update/awareness hooks, the
  Pulsar consumer loop, `onMessage`, `onClose`, the `getYDoc` registry with
  its retry loop);
* `src/storage/pulsar-storage.ts` — snapshot load/clear/save and the
  snapshot-plus-replay restore (`getDoc`).

Modelling conventions, fixed once for the whole file:

* Bytes are `List Nat`.
* The external CRDT library (yjs) is modelled as follows.
  `Y.applyUpdate doc u origin` succeeds exactly when `u` is non-empty — the
  update bytes start with a lib0 var-uint and lib0 `readVarUint` throws
  `Unexpected end of array` on an empty buffer — and on success appends
  `(u, origin)` to the document's list of applied updates and synchronously
  fires the document's `update` hook with the same bytes and origin.
* The awareness sub-protocol (y-protocols/awareness) keeps a set of client
  ids; its codec is modelled as a var-uint count followed by the changed
  client ids as var-uints.  `removeAwarenessStates` is modelled from the
  library source: it deletes the given clients that are present and fires
  the `update` hook only when at least one state was actually removed.
* Every attached WebSocket is modelled as open: `send` never takes its
  closed-socket branch, so socket sends are plain effects.
* The JS `Map` backing the peer map and the registry is modelled as an
  association list; `Map.delete` is modelled by filtering the key out
  (JS `Map` keys are unique, so this is observationally the same).
* Pulsar message ids are abstract `Nat`s; whether the serialised id stored
  in a snapshot deserialises is an explicit `Bool` field of the record.
-/

/-- Raw bytes, as carried on the socket and in Pulsar message payloads. -/
abbrev Bytes := List Nat

/-- `const messageSync = 0` in `src/server/utils.ts`. -/
def messageSync : Nat := 0

/-- `const messageAwareness = 1` in `src/server/utils.ts`. -/
def messageAwareness : Nat := 1

/-- The origin tag attached to an apply/dispatch.  `pulsar` is the
`PULSAR_ORIGIN` string constant; `peer c` is the WebSocket connection object
used as origin of a locally ingested frame; `null` is the JS `null` passed
by `onClose` to `removeAwarenessStates`. -/
inductive Origin where
  | pulsar
  | peer (c : Nat)
  | null
  deriving Repr, DecidableEq

/-- Whether a JS `conn !== origin` comparison sees connection `c` as the
origin (only a `peer` origin ever equals a connection object). -/
def originIsConn (o : Origin) (c : Nat) : Bool :=
  match o with
  | .peer c0 => c0 == c
  | _ => false

/-- lib0 `encoding.writeVarUint`: 7-bit groups, continuation bit `0x80`. -/
def encodeVarUint (n : Nat) : List Nat :=
  if h : n < 128 then [n]
  else (128 + n % 128) :: encodeVarUint (n / 128)
  decreasing_by exact Nat.div_lt_self (by omega) (by omega)

/-- lib0 `encoding.writeVarUint8Array`: var-uint length, then the bytes. -/
def encodeVarUint8Array (b : Bytes) : Bytes :=
  encodeVarUint b.length ++ b

/-- lib0 `decoding.readVarUint`, accumulator form.  `none` models the
`Unexpected end of array` throw. -/
def readVarUintAux : Bytes → Nat → Nat → Option (Nat × Bytes)
  | [], _, _ => none
  | r :: rest, num, mult =>
    let num := num + (r % 128) * mult
    if r < 128 then some (num, rest) else readVarUintAux rest num (mult * 128)

/-- lib0 `decoding.readVarUint` on the remaining bytes of a decoder. -/
def readVarUint (b : Bytes) : Option (Nat × Bytes) :=
  readVarUintAux b 0 1

/-- Take exactly `n` bytes; `none` models reading past the end. -/
def takeExact (n : Nat) (b : Bytes) : Option (Bytes × Bytes) :=
  if n ≤ b.length then some (b.take n, b.drop n) else none

/-- lib0 `decoding.readVarUint8Array`: var-uint length, then that many
bytes. -/
def readVarUint8Array (b : Bytes) : Option (Bytes × Bytes) :=
  match readVarUint b with
  | none => none
  | some (len, rest) => takeExact len rest

/-- Effects the actor performs on the outside world; the handlers are
modelled as pure functions returning the list of effects they fire. -/
inductive Effect where
  /-- `send(doc, conn, message)` on an open socket. -/
  | sendTo (conn : Nat) (frame : Bytes)
  /-- `producer.send({ data })` — one Pulsar publish with the given
  payload (kind byte followed by the body). -/
  | publish (payload : Bytes)
  /-- A `console.log` / `console.warn` / `console.error`. -/
  | log
  /-- `consumer.acknowledge(receivedMsg)`. -/
  | ack
  /-- `conn.close(...)` on the given connection. -/
  | closeConn (conn : Nat)
  /-- `doc.destroy()` scheduled (promise handed to the cleanup manager). -/
  | scheduleDestroy (name : String)
  deriving Repr, DecidableEq

/-- Whether an effect is a Pulsar publish. -/
def isPub : Effect → Bool
  | .publish _ => true
  | _ => false

/-- Number of Pulsar publishes in an effect list. -/
def countPublishes (effs : List Effect) : Nat :=
  (effs.filter isPub).length

/-- Whether an effect list contains any Pulsar publish. -/
def hasPublish (effs : List Effect) : Bool :=
  effs.any isPub

/-- Whether an effect is a connection close. -/
def isClose : Effect → Bool
  | .closeConn _ => true
  | _ => false

/-- Whether an effect list closes some connection. -/
def hasClose (effs : List Effect) : Bool :=
  effs.any isClose

@[simp] lemma isPub_sendTo (c : Nat) (f : Bytes) :
    isPub (.sendTo c f) = false := rfl

@[simp] lemma isPub_publish (p : Bytes) : isPub (.publish p) = true := rfl

@[simp] lemma isPub_log : isPub .log = false := rfl

@[simp] lemma isPub_ack : isPub .ack = false := rfl

@[simp] lemma isPub_closeConn (c : Nat) : isPub (.closeConn c) = false := rfl

@[simp] lemma isPub_scheduleDestroy (n : String) :
    isPub (.scheduleDestroy n) = false := rfl

/-- In-memory state of one document actor (`class YDoc` in
`src/server/utils.ts`).  `ydoc` is the sequence of CRDT updates applied so
far, each tagged with the origin it was applied under; `aw` is the set of
awareness client ids currently present; `conns` maps each attached
connection to the set of awareness client ids it controls; `producer`
records whether `this.producer` is non-null. -/
structure DocState where
  name : String
  conns : List (Nat × List Nat)
  producer : Bool
  ydoc : List (Bytes × Origin)
  aw : List Nat
  deriving Repr, DecidableEq

/-- JS `Map.get` on the peer map. -/
def connsLookup (c : Nat) : List (Nat × List Nat) → Option (List Nat)
  | [] => none
  | (k, v) :: rest => if k = c then some v else connsLookup c rest

/-- Model of y-protocols `encodeAwarenessUpdate(awareness, changedClients)`:
a var-uint count followed by the changed client ids (enough structure to
carry which ids the diff covers). -/
def encodeAwarenessUpdate (changed : List Nat) : Bytes :=
  encodeVarUint changed.length ++ (changed.map encodeVarUint).flatten

/-- Decode the body of an awareness message under the model codec:
var-uint count, then that many var-uint client ids.  `none` models a decode
throw inside `applyAwarenessUpdate`. -/
def decodeAwIds : Nat → Bytes → Option (List Nat × Bytes)
  | 0, b => some ([], b)
  | n + 1, b =>
    match readVarUint b with
    | none => none
    | some (id, rest) =>
      match decodeAwIds n rest with
      | none => none
      | some (ids, rest2) => some (id :: ids, rest2)

/-- Decode a whole awareness update body (model codec). -/
def decodeAwUpdate (b : Bytes) : Option (List Nat) :=
  match readVarUint b with
  | none => none
  | some (n, rest) =>
    match decodeAwIds n rest with
    | none => none
    | some (ids, _) => some ids

/-- `YDoc.updateHandler(update, origin)` (`src/server/utils.ts:151-182`):
encode the update as a `SYNC` ws frame, send it to every connection other
than the originator, and, when `origin !== PULSAR_ORIGIN` and a producer
exists, publish one Pulsar message `[messageSync, ...update]`. -/
def updateHandlerEffects (d : DocState) (update : Bytes) (origin : Origin) :
    List Effect :=
  let frame := encodeVarUint messageSync ++ encodeVarUint 2 ++
    encodeVarUint8Array update
  let sends := (d.conns.filter fun p => ¬ originIsConn origin p.1).map
    fun p => Effect.sendTo p.1 frame
  let pubs := if origin ≠ Origin.pulsar ∧ d.producer then
    [Effect.publish (messageSync :: update)] else []
  sends ++ pubs

/-- `YDoc.awarenessHandler({added, updated, removed}, origin)`
(`src/server/utils.ts:184-215`): encode the diff for the changed clients,
send it to every connection, and, when `origin !== PULSAR_ORIGIN` and a
producer exists, publish one Pulsar message `[messageAwareness, ...diff]`. -/
def awarenessHandlerEffects (d : DocState) (changed : List Nat)
    (origin : Origin) : List Effect :=
  let upd := encodeAwarenessUpdate changed
  let frame := encodeVarUint messageAwareness ++ encodeVarUint8Array upd
  let sends := d.conns.map fun p => Effect.sendTo p.1 frame
  let pubs := if origin ≠ Origin.pulsar ∧ d.producer then
    [Effect.publish (messageAwareness :: upd)] else []
  sends ++ pubs

/-- Model of `Y.applyUpdate(doc, update, origin)` followed by the
synchronous `update` hook: succeeds exactly on non-empty update bytes
(lib0 throws on an empty buffer), appending the tagged update and firing
`updateHandler`. -/
def applyUpdateModel (d : DocState) (update : Bytes) (origin : Origin) :
    Option (DocState × List Effect) :=
  if update.isEmpty then none
  else
    let d := { d with ydoc := d.ydoc ++ [(update, origin)] }
    some (d, updateHandlerEffects d update origin)

/-- Set union keeping first-occurrence order, as the awareness map absorbs
a diff's client ids. -/
def awMerge (aw ids : List Nat) : List Nat :=
  aw ++ ids.filter fun i => decide (i ∉ aw)

/-- Model of y-protocols `applyAwarenessUpdate(awareness, body, origin)`
followed by the synchronous `update` hook: decode the changed ids, absorb
them, and fire `awarenessHandler` when anything changed. -/
def applyAwarenessModel (d : DocState) (body : Bytes) (origin : Origin) :
    Option (DocState × List Effect) :=
  match decodeAwUpdate body with
  | none => none
  | some ids =>
    let d := { d with aw := awMerge d.aw ids }
    if ids.isEmpty then some (d, [])
    else some (d, awarenessHandlerEffects d ids origin)

/-- One iteration body of the Pulsar consumer loop in `getYDoc`
(`src/server/utils.ts:387-437`), given the payload of one received broker
message: reject empty payloads and payloads whose body after the kind byte
is empty, dispatch kind `0` to `Y.applyUpdate` and kind `1` to
`applyAwarenessUpdate`, both with `origin = PULSAR_ORIGIN`, warn on an
unknown kind, and acknowledge in every case. -/
def consumerStep (d : DocState) (data : Bytes) : DocState × List Effect :=
  match data with
  | [] => (d, [.log, .ack])
  | k :: update =>
    if update.isEmpty then (d, [.log, .ack])
    else if k = messageSync then
      match applyUpdateModel d update .pulsar with
      | none => (d, [.log, .ack])
      | some (d', effs) => (d', effs ++ [.ack])
    else if k = messageAwareness then
      match applyAwarenessModel d update .pulsar with
      | none => (d, [.log, .ack])
      | some (d', effs) => (d', effs ++ [.ack])
    else (d, [.log, .ack])

/-- y-protocols `removeAwarenessStates(awareness, clients, origin)`,
modelled from the library source: delete each given client that is present,
collect the ones actually removed, and fire the `update` hook (hence
`awarenessHandler`) only when at least one was removed. -/
def removeAwarenessStates (d : DocState) (clients : List Nat)
    (origin : Origin) : DocState × List Effect :=
  let removed := clients.filter fun i => decide (i ∈ d.aw)
  let d1 := { d with aw := d.aw.filter fun i => decide (i ∉ clients) }
  (d1, if removed.isEmpty then []
    else awarenessHandlerEffects d1 removed origin)

/-- `onClose(conn, doc)` (`src/server/utils.ts:273-283`): if the connection
is still in the peer map, remove it, remove the awareness states it
controlled with origin `null`, and when the peer map became empty schedule
`doc.destroy()` (the promise goes to the cleanup manager; the registry is
not touched here). -/
def onClose (d : DocState) (c : Nat) : DocState × List Effect :=
  match connsLookup c d.conns with
  | none => (d, [])
  | some controlledIds =>
    let d1 := { d with conns := d.conns.filter fun p => p.1 ≠ c }
    let r := removeAwarenessStates d1 controlledIds .null
    (r.1, r.2 ++
      if r.1.conns.isEmpty then [.scheduleDestroy r.1.name] else [])

/-- Model of y-protocols `readSyncMessage(decoder, encoder, doc, origin)`
on the bytes remaining after the outer kind byte.  It first reads the
sync sub-kind as a var-uint (`none` models the throw on an empty or
truncated body).  Sub-kind 0 (sync step 1) writes a step-2 reply carrying
the encoded document state; sub-kinds 1 and 2 (sync step 2 / update) read a
var-uint-length update and apply it; any other sub-kind throws.  Returns
the update that was applied, if any, and the bytes the reply encoder
gained. -/
def readSyncMessageModel (body : Bytes) :
    Option (Option Bytes × Bytes) :=
  match readVarUint body with
  | none => none
  | some (sub, rest) =>
    if sub = 0 then
      some (none, encodeVarUint 1 ++ encodeVarUint8Array [0, 0])
    else if sub = 1 ∨ sub = 2 then
      match readVarUint8Array rest with
      | none => none
      | some (u, _) => if u.isEmpty then none else some (some u, [])
    else none

/-- `onMessage(conn, doc, message)` (`src/server/utils.ts:454-515`): the
socket-ingress handler.  Empty messages are warned about and dropped; a
failed var-uint decode of the kind is warned about and dropped; kind `0`
runs the sync protocol reader (warning and dropping on its throw) and
replies to the sender — with the reader's reply when it wrote one, with an
empty sync-step-2 otherwise; kind `1` reads the var-uint-length awareness
body and applies it with the connection as origin (warning and dropping on
a throw); an unknown kind is warned about and dropped.  Only the outer
catch-all (unreachable in this model) would close the connection. -/
def onMessage (d : DocState) (c : Nat) (message : Bytes) :
    DocState × List Effect :=
  if message.isEmpty then (d, [.log])
  else
    match readVarUint message with
    | none => (d, [.log])
    | some (t, rest) =>
      if t = messageSync then
        match readSyncMessageModel rest with
        | none => (d, [.log])
        | some (applied, replyTail) =>
          let step := match applied with
            | some u =>
              match applyUpdateModel d u (.peer c) with
              | none => none
              | some r => some r
            | none => some (d, [])
          match step with
          | none => (d, [.log])
          | some (d', hookEffs) =>
            let frame := encodeVarUint messageSync ++ replyTail
            if frame.length > 1 then (d', hookEffs ++ [.sendTo c frame])
            else
              (d', hookEffs ++
                [.sendTo c (encodeVarUint messageSync ++ encodeVarUint 1 ++
                  encodeVarUint8Array [0, 0])])
      else if t = messageAwareness then
        match readVarUint8Array rest with
        | none => (d, [.log])
        | some (body, _) =>
          match applyAwarenessModel d body (.peer c) with
          | none => (d, [.log])
          | some (d', effs) => (d', effs)
      else (d, [.log])


lemma hasPublish_append (a b : List Effect) :
    hasPublish (a ++ b) = (hasPublish a || hasPublish b) := by
  simp [hasPublish]

lemma countPublishes_append (a b : List Effect) :
    countPublishes (a ++ b) = countPublishes a + countPublishes b := by
  simp [countPublishes]

lemma updateHandlerEffects_pulsar_no_publish (d : DocState) (u : Bytes) :
    hasPublish (updateHandlerEffects d u .pulsar) = false := by
  simp only [updateHandlerEffects, hasPublish, List.any_append,
    List.any_map, Function.comp]
  simp only [ne_eq, not_true_eq_false, false_and, if_false,
    List.any_nil, Bool.or_false]
  rw [List.any_eq_false]
  intro p hp
  obtain ⟨q, -, rfl⟩ := List.mem_map.1 hp
  simp

lemma awarenessHandlerEffects_pulsar_no_publish (d : DocState)
    (ids : List Nat) :
    hasPublish (awarenessHandlerEffects d ids .pulsar) = false := by
  simp only [awarenessHandlerEffects, hasPublish, List.any_append,
    List.any_map, Function.comp]
  simp only [ne_eq, not_true_eq_false, false_and, if_false,
    List.any_nil, Bool.or_false]
  rw [List.any_eq_false]
  intro p hp
  obtain ⟨q, -, rfl⟩ := List.mem_map.1 hp
  simp

/-- **C1.**  For every message delivered by the broker consumer
(`src/server/utils.ts:387-437`): the consumer-loop body never publishes to
the broker — the update and awareness hooks fire with
`origin = PULSAR_ORIGIN`, for which their publish guard is false — and a
well-formed `SYNC` payload (kind byte `0`, non-empty body) is applied to
the CRDT state tagged with the broker origin and its frame is broadcast to
every local peer. -/
theorem c1_broker_ingress (d : DocState) (data : Bytes) :
    hasPublish (consumerStep d data).2 = false ∧
    (∀ update, data = messageSync :: update → update ≠ [] →
      (consumerStep d data).1.ydoc = d.ydoc ++ [(update, Origin.pulsar)] ∧
      ∀ p ∈ d.conns,
        Effect.sendTo p.1 (encodeVarUint messageSync ++ encodeVarUint 2 ++
          encodeVarUint8Array update) ∈ (consumerStep d data).2) ∧
    (∀ update, data = messageAwareness :: update → update ≠ [] →
      ∀ ids, decodeAwUpdate update = some ids →
        (consumerStep d data).1.aw = awMerge d.aw ids ∧
        (ids ≠ [] → ∀ p ∈ d.conns,
          Effect.sendTo p.1 (encodeVarUint messageAwareness ++
            encodeVarUint8Array (encodeAwarenessUpdate ids)) ∈
            (consumerStep d data).2)) := by
  refine ⟨?_, ?_, ?_⟩
  · match data with
    | [] => simp [consumerStep, hasPublish]
    | k :: update =>
      by_cases hu : update.isEmpty
      · simp [consumerStep, hu, hasPublish]
      · by_cases hk0 : k = messageSync
        · simp only [consumerStep, hu, Bool.false_eq_true, if_false, hk0,
            if_true, applyUpdateModel]
          rw [hasPublish_append, updateHandlerEffects_pulsar_no_publish]
          rfl
        · by_cases hk1 : k = messageAwareness
          · simp only [consumerStep, hu, Bool.false_eq_true, if_false, hk0,
              hk1, if_true, messageAwareness, messageSync,
              Nat.one_ne_zero]
            match hdec : decodeAwUpdate update with
            | none => simp [applyAwarenessModel, hdec, hasPublish]
            | some ids =>
              by_cases hids : ids.isEmpty
              · simp [applyAwarenessModel, hdec, hids, hasPublish]
              · simp only [applyAwarenessModel, hdec, hids,
                  Bool.false_eq_true, if_false]
                rw [hasPublish_append,
                  awarenessHandlerEffects_pulsar_no_publish]
                rfl
          · simp [consumerStep, hu, hk0, hk1, hasPublish]
  · rintro update rfl hne
    have hu : update.isEmpty = false := by
      cases update <;> simp_all
    constructor
    · simp [consumerStep, hu, applyUpdateModel]
    · intro p hp
      simp only [consumerStep, hu, Bool.false_eq_true, if_false, if_true,
        applyUpdateModel]
      simp only [updateHandlerEffects, List.mem_append]
      left
      left
      simp only [List.mem_map]
      refine ⟨p, ?_, rfl⟩
      simp [originIsConn, hp]
  · rintro update rfl hne ids hdec
    have hu : update.isEmpty = false := by
      cases update <;> simp_all
    have h01 : ¬ messageAwareness = messageSync := by
      simp [messageAwareness, messageSync]
    constructor
    · by_cases hids : ids.isEmpty <;>
        simp [consumerStep, hu, h01, applyAwarenessModel, hdec, hids]
    · intro hne2 p hp
      have hids : ids.isEmpty = false := by
        cases ids <;> simp_all
      simp only [consumerStep, hu, Bool.false_eq_true, if_false, h01,
        if_true, applyAwarenessModel, hdec, hids]
      simp only [awarenessHandlerEffects, List.mem_append]
      left
      left
      simp only [List.mem_map]
      exact ⟨p, hp, rfl⟩

/-- Witness document for the C1 theorem: two attached peers, a live
producer. -/
def c1WitnessDoc : DocState :=
  { name := "w", conns := [(1, []), (2, [])], producer := true,
    ydoc := [], aw := [] }

/-- Witness: `c1_broker_ingress` evaluated on a concrete two-peer document
receiving the broker payload `[0, 7]`. -/
theorem c1_broker_ingress_witness :
    hasPublish (consumerStep c1WitnessDoc [0, 7]).2 = false ∧
    (consumerStep c1WitnessDoc [0, 7]).1.ydoc = [([7], Origin.pulsar)] ∧
    Effect.sendTo 1 (encodeVarUint messageSync ++ encodeVarUint 2 ++
      encodeVarUint8Array [7]) ∈ (consumerStep c1WitnessDoc [0, 7]).2 ∧
    (consumerStep c1WitnessDoc [1, 1, 42]).1.aw = [42] := by
  obtain ⟨h1, h2, h5⟩ := c1_broker_ingress c1WitnessDoc [0, 7]
  obtain ⟨h3, h4⟩ := h2 [7] rfl (by decide)
  obtain ⟨-, -, h6⟩ := c1_broker_ingress c1WitnessDoc [1, 1, 42]
  obtain ⟨h7, -⟩ := h6 [1, 42] rfl (by decide) [42] (by decide)
  refine ⟨h1, by simpa [c1WitnessDoc] using h3,
    h4 (1, []) (by simp [c1WitnessDoc]), ?_⟩
  rw [h7]
  decide

/-- A socket frame that the spec calls malformed: empty, a lone kind byte,
or an unknown kind byte (a var-uint-decodable first byte other than `0`
and `1`). -/
def sockMalformed (m : Bytes) : Prop :=
  m = [] ∨ (∃ k, m = [k]) ∨ ∃ k rest, m = k :: rest ∧ 2 ≤ k ∧ k < 128

/-- A broker payload that the spec calls malformed: empty, a lone kind
byte, or an unknown kind byte. -/
def brokerMalformed (m : Bytes) : Prop :=
  m = [] ∨ (∃ k, m = [k]) ∨ ∃ k rest, m = k :: rest ∧ 2 ≤ k

/-- **C5.**  On both ingress paths — `onMessage`
(`src/server/utils.ts:454-515`) and the consumer loop
(`src/server/utils.ts:387-437`) — an empty payload, a kind-byte-only
payload, or an unknown kind byte is logged and dropped: the document state
(CRDT, awareness, peer map) is returned unchanged, the only socket-path
effect is the warning log (no close, no send, no publish), and the
consumer-path effects are the warning log followed by the acknowledgement,
after which the loop continues. -/
theorem c5_malformed_ingress_dropped (d : DocState) (c : Nat)
    (m data : Bytes) :
    (sockMalformed m → onMessage d c m = (d, [.log])) ∧
    (brokerMalformed data → consumerStep d data = (d, [.log, .ack])) := by
  constructor
  · rintro (rfl | ⟨k, rfl⟩ | ⟨k, rest, rfl, hk2, hk128⟩)
    · simp [onMessage]
    · by_cases hk : k < 128
      · have hmod : k % 128 = k := Nat.mod_eq_of_lt hk
        rcases Nat.lt_or_ge k 2 with hsmall | hbig
        · interval_cases k <;>
            simp [onMessage, readVarUint, readVarUintAux,
              readSyncMessageModel, readVarUint8Array, messageSync,
              messageAwareness]
        · have h0 : ¬ k = messageSync := by simp [messageSync]; omega
          have h1 : ¬ k = messageAwareness := by
            simp [messageAwareness]; omega
          simp [onMessage, readVarUint, readVarUintAux, hk, hmod, h0, h1]
      · simp [onMessage, readVarUint, readVarUintAux, hk]
    · have hk : k < 128 := hk128
      have hmod : k % 128 = k := Nat.mod_eq_of_lt hk
      have h0 : ¬ k = messageSync := by simp [messageSync]; omega
      have h1 : ¬ k = messageAwareness := by simp [messageAwareness]; omega
      simp [onMessage, readVarUint, readVarUintAux, hk, hmod, h0, h1]
  · rintro (rfl | ⟨k, rfl⟩ | ⟨k, rest, rfl, hk2⟩)
    · simp [consumerStep]
    · simp [consumerStep]
    · rcases rest with - | ⟨b, rest⟩
      · simp [consumerStep]
      · have h0 : ¬ k = messageSync := by simp [messageSync]; omega
        have h1 : ¬ k = messageAwareness := by simp [messageAwareness]; omega
        simp [consumerStep, h0, h1]

/-- Witness: `c5_malformed_ingress_dropped` at a concrete document, the
1-byte socket frame `[0]` and the unknown-kind broker payload `[9, 1]`. -/
theorem c5_malformed_ingress_dropped_witness :
    onMessage c1WitnessDoc 1 [0] = (c1WitnessDoc, [.log]) ∧
    consumerStep c1WitnessDoc [9, 1] = (c1WitnessDoc, [.log, .ack]) := by
  obtain ⟨h1, h2⟩ :=
    c5_malformed_ingress_dropped c1WitnessDoc 1 [0] [9, 1]
  exact ⟨h1 (Or.inr (Or.inl ⟨0, rfl⟩)),
    h2 (Or.inr (Or.inr ⟨9, [1], rfl, by decide⟩))⟩


lemma onClose_not_present (d : DocState) (c : Nat)
    (h : connsLookup c d.conns = none) : onClose d c = (d, []) := by
  simp [onClose, h]

lemma connsLookup_filter_self (c : Nat) (l : List (Nat × List Nat)) :
    connsLookup c (l.filter fun p => p.1 ≠ c) = none := by
  induction l with
  | nil => rfl
  | cons hd tl ih =>
    by_cases h : hd.1 = c
    · simpa [List.filter, h] using ih
    · simpa [List.filter, h, connsLookup] using ih

lemma onClose_fst (d : DocState) (c : Nat) (ids : List Nat)
    (h : connsLookup c d.conns = some ids) :
    (onClose d c).1 =
      { d with conns := d.conns.filter fun p => p.1 ≠ c,
               aw := d.aw.filter fun i => decide (i ∉ ids) } := by
  simp [onClose, h, removeAwarenessStates]

lemma onClose_snd (d : DocState) (c : Nat) (ids : List Nat)
    (h : connsLookup c d.conns = some ids) :
    (onClose d c).2 =
      (let d1 : DocState :=
        { d with conns := d.conns.filter fun p => p.1 ≠ c,
                 aw := d.aw.filter fun i => decide (i ∉ ids) }
       (if (ids.filter fun i => decide (i ∈ d.aw)).isEmpty then []
        else awarenessHandlerEffects d1 (ids.filter fun i => decide (i ∈ d.aw))
          .null) ++
        if d1.conns.isEmpty then [.scheduleDestroy d1.name] else []) := by
  simp [onClose, h, removeAwarenessStates]

lemma countPublishes_awHandler_null (d2 : DocState) (removed : List Nat) :
    countPublishes (awarenessHandlerEffects d2 removed .null) =
      if d2.producer then 1 else 0 := by
  simp only [awarenessHandlerEffects, countPublishes, List.filter_append]
  have hsends :
      (List.filter isPub (d2.conns.map fun p =>
        Effect.sendTo p.1 (encodeVarUint messageAwareness ++
          encodeVarUint8Array (encodeAwarenessUpdate removed)))) = [] := by
    rw [List.filter_eq_nil_iff]
    intro e he
    obtain ⟨q, -, rfl⟩ := List.mem_map.1 he
    simp
  rw [hsends]
  by_cases hp : d2.producer <;> simp [hp]

lemma mem_awHandler_publish (d2 : DocState) (removed : List Nat)
    (payload : Bytes)
    (hm : Effect.publish payload ∈
      awarenessHandlerEffects d2 removed .null) :
    payload = messageAwareness :: encodeAwarenessUpdate removed := by
  simp only [awarenessHandlerEffects, List.mem_append] at hm
  rcases hm with hm | hm
  · exfalso
    obtain ⟨q, -, hq⟩ := List.mem_map.1 hm
    exact absurd hq (by simp)
  · split at hm <;> simp_all

/-- **C9 counterexample.**  A peer whose controlled-awareness-id set is
empty — the state `setupWSConnection` actually creates, since nothing in
`src/server/utils.ts` ever adds ids to a connection's set — detaches from a
document with a live producer and a populated awareness map:
`removeAwarenessStates` removes nothing, fires no `update` event, and hence
zero broker messages are published, not exactly one as the claim states. -/
def c9CexDoc : DocState :=
  { name := "d", conns := [(0, []), (5, [])], producer := true,
    ydoc := [], aw := [42] }

/-- The claim "exactly one kind-`0x01` broker message is published on
detach" is false at `c9CexDoc`: peer `0` is attached with an empty
controlled set and a producer exists, yet `onClose` publishes nothing. -/
theorem c9_detach_publish_cex :
    connsLookup 0 c9CexDoc.conns = some [] ∧
    c9CexDoc.producer = true ∧
    ¬ countPublishes (onClose c9CexDoc 0).2 = 1 := by
  refine ⟨rfl, rfl, ?_⟩
  decide

/-- **C9 amended.**  When peer `c` detaches (`onClose`,
`src/server/utils.ts:273-283`), every id it controlled is absent from the
awareness state afterwards, the peer is removed from the peer map, and the
removal is applied with origin `null` (not the broker tag), so that when at
least one controlled id was actually present in the awareness state and a
producer exists, exactly one broker message — kind byte `0x01` carrying the
diff for the removed ids — is published; when no controlled id was present
(in particular for the always-empty controlled sets this code maintains),
no broker message is published. -/
theorem c9_detach_awareness_removal (d : DocState) (c : Nat)
    (ids : List Nat) (h : connsLookup c d.conns = some ids) :
    (∀ i ∈ ids, i ∉ (onClose d c).1.aw) ∧
    (onClose d c).1.conns = d.conns.filter (fun p => p.1 ≠ c) ∧
    countPublishes (onClose d c).2 =
      (if (ids.filter fun i => decide (i ∈ d.aw)).isEmpty ∨ ¬ d.producer
        then 0 else 1) ∧
    (∀ payload, Effect.publish payload ∈ (onClose d c).2 →
      payload = messageAwareness ::
        encodeAwarenessUpdate (ids.filter fun i => decide (i ∈ d.aw))) := by
  refine ⟨?_, ?_, ?_, ?_⟩
  · intro i hi
    rw [onClose_fst d c ids h]
    simp only [List.mem_filter, not_and]
    intro _
    simp [hi]
  · rw [onClose_fst d c ids h]
  · rw [onClose_snd d c ids h]
    simp only [countPublishes_append]
    have hdestroy : ∀ b : Bool, ∀ n : String,
        countPublishes (if b then [.scheduleDestroy n] else []) = 0 := by
      intro b n
      cases b <;> simp [countPublishes]
    by_cases hr : (ids.filter fun i => decide (i ∈ d.aw)).isEmpty
    · simp only [hr, if_true]
      rw [hdestroy]
      simp [countPublishes]
    · simp only [hr, Bool.false_eq_true, if_false]
      rw [hdestroy, countPublishes_awHandler_null]
      by_cases hp : d.producer <;> simp [hp, hr]
  · intro payload hmem
    rw [onClose_snd d c ids h] at hmem
    simp only [List.mem_append] at hmem
    rcases hmem with hm | hm
    · by_cases hr : (ids.filter fun i => decide (i ∈ d.aw)).isEmpty
      · simp [hr] at hm
      · simp only [hr, Bool.false_eq_true, if_false] at hm
        exact mem_awHandler_publish _ _ _ hm
    · exfalso
      split at hm <;> simp_all

/-- Witness document for the amended C9 theorem: a peer that controls id
`42` while `42` is present in the awareness state and a producer exists. -/
def c9WitnessDoc : DocState :=
  { name := "d", conns := [(0, [42]), (5, [])], producer := true,
    ydoc := [], aw := [42, 7] }

/-- Witness for the amended C9 theorem at `c9WitnessDoc`: exactly one
kind-`0x01` publish, and `42` is gone afterwards. -/
theorem c9_detach_awareness_removal_witness :
    (∀ i ∈ [42], i ∉ (onClose c9WitnessDoc 0).1.aw) ∧
    countPublishes (onClose c9WitnessDoc 0).2 = 1 := by
  obtain ⟨h1, -, h3, -⟩ :=
    c9_detach_awareness_removal c9WitnessDoc 0 [42] rfl
  refine ⟨h1, ?_⟩
  rw [h3]
  decide

/-- **C10.**  `onClose` (`src/server/utils.ts:273-283`) is idempotent per
connection: a second invocation for the same connection finds the
connection gone from the peer map, so it returns the document state
unchanged and fires no effect at all — in particular it removes no
awareness state, schedules no second tear-down, and (since `docs` is only
touched by the scheduled destroy) leaves the registry untouched. -/
theorem c10_onClose_idempotent (d : DocState) (c : Nat) :
    onClose (onClose d c).1 c = ((onClose d c).1, []) := by
  match h : connsLookup c d.conns with
  | none =>
    rw [onClose_not_present d c h]
    exact onClose_not_present d c h
  | some ids =>
    have hnone : connsLookup c (onClose d c).1.conns = none := by
      rw [onClose_fst d c ids h]
      exact connsLookup_filter_self c d.conns
    exact onClose_not_present _ c hnone

/-!
## Registry and actor lifecycle (`getYDoc`, `destroy`)

`getYDoc` (`src/server/utils.ts:301-452`) runs synchronously from the
lookup through `new YDoc(docName)` and `docs.set(docName, newDoc)`; every
later step of the creation sequence sits behind an `await`.  `destroy`
(`src/server/utils.ts:217-247`) awaits the final store and the
producer/consumer closes before it reaches `docs.delete(this.name)`.  The
model below therefore splits both into atomic segments at those await
points: `getYDocPrefix` is the synchronous prefix of `getYDoc`,
`scheduleDestroy`/`destroyFinish` are the start and the completion of a
`destroy` call.
-/

/-- A registry entry: the actor object for one document name.  `aid` is a
creation counter distinguishing actor objects; `producer`/`consumer`
record whether the corresponding handles have been assigned yet. -/
structure Actor where
  aid : Nat
  producer : Bool
  consumer : Bool
  deriving Repr, DecidableEq

/-- Process-wide registry state: the `docs` map, a creation counter for
fresh actor identities, and the set of in-flight `destroy()` calls whose
`docs.delete` has not run yet. -/
structure Sys where
  docs : List (String × Actor)
  nextId : Nat
  pendingDestroy : List (String × Nat)
  deriving Repr, DecidableEq

/-- JS `Map.get` on the registry. -/
def docsLookup (name : String) : List (String × Actor) → Option Actor
  | [] => none
  | (k, v) :: rest => if k = name then some v else docsLookup name rest

/-- Outcome of the synchronous prefix of `getYDoc`. -/
inductive GetOutcome where
  /-- `docs.get(docName)` hit: the existing actor is returned at once. -/
  | returned (a : Actor)
  /-- Miss: a fresh actor was constructed and inserted; its creation
  sequence continues asynchronously after this prefix. -/
  | created (a : Actor)
  deriving Repr, DecidableEq

/-- The synchronous prefix of `getYDoc` (`src/server/utils.ts:301-308`):
return the existing actor if present; otherwise construct a bare `YDoc`
(no producer, no consumer) and insert it into `docs` before the first
`await` of the creation sequence. -/
def getYDocPrefix (sys : Sys) (name : String) : Sys × GetOutcome :=
  match docsLookup name sys.docs with
  | some a => (sys, .returned a)
  | none =>
    let a : Actor := ⟨sys.nextId, false, false⟩
    ({ sys with docs := sys.docs ++ [(name, a)], nextId := sys.nextId + 1 },
      .created a)

/-- The registry-visible part of scheduling `doc.destroy()` from `onClose`
when the peer map became empty: the destroy is *started* (its promise is
handed to the cleanup manager) but `docs.delete` has not run, so the
registry still holds the actor. -/
def scheduleDestroySys (sys : Sys) (name : String) (aid : Nat) : Sys :=
  { sys with pendingDestroy := sys.pendingDestroy ++ [(name, aid)] }

/-- Completion of a `destroy()` call (`src/server/utils.ts:217-247`): after
its awaited store and closes resolve, it runs `docs.delete(this.name)` —
deleting whatever actor currently sits under the name. -/
def destroyFinish (sys : Sys) (name : String) (aid : Nat) : Sys :=
  { sys with docs := sys.docs.filter fun p => p.1 ≠ name,
             pendingDestroy := sys.pendingDestroy.filter
               fun p => ¬ (p.1 = name ∧ p.2 = aid) }

lemma docsLookup_append_self (name : String) (l : List (String × Actor))
    (a : Actor) (h : docsLookup name l = none) :
    docsLookup name (l ++ [(name, a)]) = some a := by
  induction l with
  | nil => simp [docsLookup]
  | cons hd tl ih =>
    rcases hd with ⟨k, v⟩
    simp only [List.cons_append, docsLookup] at h ⊢
    by_cases hk : k = name
    · rw [if_pos hk] at h
      exact absurd h (by simp)
    · rw [if_neg hk] at h ⊢
      exact ih h

lemma docsLookup_filter_self (name : String) (l : List (String × Actor)) :
    docsLookup name (l.filter fun p => p.1 ≠ name) = none := by
  induction l with
  | nil => rfl
  | cons hd tl ih =>
    by_cases h : hd.1 = name
    · simpa [List.filter, h] using ih
    · simpa [List.filter, h, docsLookup] using ih

lemma getYDocPrefix_present (sys : Sys) (name : String) (a : Actor)
    (h : docsLookup name sys.docs = some a) :
    getYDocPrefix sys name = (sys, .returned a) := by
  simp [getYDocPrefix, h]

lemma getYDocPrefix_absent (sys : Sys) (name : String)
    (h : docsLookup name sys.docs = none) :
    getYDocPrefix sys name =
      ({ sys with
          docs := sys.docs ++ [(name, ⟨sys.nextId, false, false⟩)],
          nextId := sys.nextId + 1 },
        .created ⟨sys.nextId, false, false⟩) := by
  simp [getYDocPrefix, h]

/-- **C2 counterexample.**  Start from an empty registry; caller 1 runs the
synchronous prefix of `getYDoc "d"` (actor inserted, creation sequence not
yet run, so `producer = false`); caller 2 then calls `getYDoc "d"` and gets
that partially created actor back immediately — it does not wait for the
in-flight creation, refuting "no caller observes a partially created
actor". -/
theorem c2_registry_get_cex :
    (getYDocPrefix ⟨[], 0, []⟩ "d").2 = .created ⟨0, false, false⟩ ∧
    (getYDocPrefix (getYDocPrefix ⟨[], 0, []⟩ "d").1 "d").2 =
      .returned ⟨0, false, false⟩ ∧
    (⟨0, false, false⟩ : Actor).producer = false := by
  refine ⟨rfl, ?_, rfl⟩
  rfl

/-- **C2 amended.**  `getYDoc`'s registry discipline
(`src/server/utils.ts:301-310`): a lookup hit returns the existing actor
with the registry untouched; a miss creates exactly one fresh actor and
inserts it synchronously before the first await, so at most one creation
sequence is ever started per name — but a caller arriving during that
creation receives the inserted actor *immediately*, without waiting, and
can observe it partially created (`producer = false`). -/
theorem c2_registry_get (sys : Sys) (name : String) :
    (∀ a, docsLookup name sys.docs = some a →
      getYDocPrefix sys name = (sys, .returned a)) ∧
    (docsLookup name sys.docs = none →
      (getYDocPrefix sys name).2 =
        .created ⟨sys.nextId, false, false⟩ ∧
      (getYDocPrefix sys name).1.docs =
        sys.docs ++ [(name, ⟨sys.nextId, false, false⟩)] ∧
      (getYDocPrefix (getYDocPrefix sys name).1 name).2 =
        .returned ⟨sys.nextId, false, false⟩) := by
  constructor
  · intro a ha
    simp [getYDocPrefix, ha]
  · intro hnone
    refine ⟨?_, ?_, ?_⟩
    · simp [getYDocPrefix, hnone]
    · simp [getYDocPrefix, hnone]
    · have h1 : (getYDocPrefix sys name).1.docs =
          sys.docs ++ [(name, ⟨sys.nextId, false, false⟩)] := by
        simp [getYDocPrefix, hnone]
      have h2 : docsLookup name (getYDocPrefix sys name).1.docs =
          some ⟨sys.nextId, false, false⟩ := by
        rw [h1]
        exact docsLookup_append_self name sys.docs _ hnone
      rw [getYDocPrefix_present _ _ _ h2]

/-- Witness: `c2_registry_get` on a singleton registry (hit path) and on
the empty registry (miss path). -/
theorem c2_registry_get_witness :
    getYDocPrefix ⟨[("d", ⟨3, true, true⟩)], 4, []⟩ "d" =
      (⟨[("d", ⟨3, true, true⟩)], 4, []⟩, .returned ⟨3, true, true⟩) ∧
    (getYDocPrefix ⟨[], 0, []⟩ "e").2 = .created ⟨0, false, false⟩ := by
  obtain ⟨h1, -⟩ := c2_registry_get ⟨[("d", ⟨3, true, true⟩)], 4, []⟩ "d"
  obtain ⟨-, h2⟩ := c2_registry_get ⟨[], 0, []⟩ "e"
  exact ⟨h1 ⟨3, true, true⟩ rfl, (h2 rfl).1⟩

/-- **C4 counterexample.**  A registry holding actor `⟨1, true, true⟩` for
`"d"` whose last peer just detached: `onClose` only *schedules*
`doc.destroy()` (`src/server/utils.ts:278-281`), and `destroy` reaches
`docs.delete` only after awaiting the final store and the handle closes
(`src/server/utils.ts:217-247`) — so a `getYDoc` that runs before that
completion still finds the name in `docs` and returns the dying actor,
not a fresh one. -/
theorem c4_detach_registry_cex :
    docsLookup "d"
      (scheduleDestroySys ⟨[("d", ⟨1, true, true⟩)], 2, []⟩ "d" 1).docs =
      some ⟨1, true, true⟩ ∧
    (getYDocPrefix
      (scheduleDestroySys ⟨[("d", ⟨1, true, true⟩)], 2, []⟩ "d" 1) "d").2 =
      .returned ⟨1, true, true⟩ ∧
    (scheduleDestroySys ⟨[("d", ⟨1, true, true⟩)], 2, []⟩ "d"
      1).pendingDestroy = [("d", 1)] := by
  exact ⟨rfl, rfl, rfl⟩

/-- **C4 amended.**  When a detach empties the peer map, the actor's
destroy is only scheduled; the registry entry survives until the destroy
completes, and a `get` in that window returns the same (dying) actor.
Once `destroyFinish` has run `docs.delete`, the name is absent and the
next `get` constructs a fresh actor (a new creation-counter id, no
producer yet). -/
theorem c4_detach_registry (sys : Sys) (name : String) (a : Actor)
    (h : docsLookup name sys.docs = some a) (hfresh : a.aid < sys.nextId) :
    (getYDocPrefix (scheduleDestroySys sys name a.aid) name).2 =
      .returned a ∧
    docsLookup name
      (destroyFinish (scheduleDestroySys sys name a.aid) name a.aid).docs =
      none ∧
    (getYDocPrefix
      (destroyFinish (scheduleDestroySys sys name a.aid) name a.aid)
      name).2 = .created ⟨sys.nextId, false, false⟩ ∧
    ¬ (⟨sys.nextId, false, false⟩ : Actor) = a := by
  have hs1 : docsLookup name (scheduleDestroySys sys name a.aid).docs =
      some a := h
  have hs2 : docsLookup name
      (destroyFinish (scheduleDestroySys sys name a.aid) name a.aid).docs =
      none := docsLookup_filter_self name _
  refine ⟨?_, hs2, ?_, ?_⟩
  · rw [getYDocPrefix_present _ _ _ hs1]
  · rw [getYDocPrefix_absent _ _ hs2]
    rfl
  · intro he
    have : sys.nextId = a.aid := congrArg Actor.aid he
    omega

/-- Witness for the amended C4 theorem on a concrete one-entry registry. -/
theorem c4_detach_registry_witness :
    (getYDocPrefix
      (destroyFinish
        (scheduleDestroySys ⟨[("d", ⟨1, true, true⟩)], 2, []⟩ "d" 1)
        "d" 1) "d").2 = .created ⟨2, false, false⟩ := by
  obtain ⟨-, -, h3, -⟩ :=
    c4_detach_registry ⟨[("d", ⟨1, true, true⟩)], 2, []⟩ "d"
      ⟨1, true, true⟩ rfl (by decide)
  exact h3

/-- `const MAX_RETRIES = 3` (`src/server/utils.ts:299`). -/
def MAX_RETRIES : Nat := 3

/-- Observable events of one `getYDoc` call's creation sequence. -/
inductive TraceEv where
  /-- `console.error("Attempt n failed to initialize Pulsar resources")`. -/
  | attemptFailed (n : Nat)
  /-- `await reconnectPulsarClient(...)`. -/
  | reconnect
  /-- `await new Promise(resolve => setTimeout(resolve, ms))`. -/
  | sleep (ms : Nat)
  /-- `docs.delete(name)` reached inside the awaited `newDoc.destroy()`. -/
  | registryDelete (name : String)
  /-- The error thrown to the caller after the final attempt failed. -/
  | raise
  /-- Attempt `n` completed the creation sequence and returned the actor. -/
  | success (n : Nat)
  deriving Repr, DecidableEq

/-- Replace the registry entry for `name` (the real code mutates the same
`YDoc` object held by the map; the model rebinds the value). -/
def updateDocs (sys : Sys) (name : String) (a : Actor) : Sys :=
  { sys with docs := sys.docs.map fun p => if p.1 = name then (p.1, a) else p }

/-- The retry loop of `getYDoc` (`src/server/utils.ts:310-450`).
`outcomes` abstracts whether the body of each attempt — storage load,
health checks, producer and consumer creation, consumer-loop start —
succeeds; the loop body is atomic here because none of its awaits touch
the registry.  On success the actor gains its producer and consumer and is
returned.  On failure of a non-final attempt the client is reconnected and
the loop sleeps 1000 ms; on failure of the final attempt the code *awaits*
`newDoc.destroy()` — whose `docs.delete` therefore runs before the error
is thrown to the caller. -/
def initAttemptsGo (name : String) (outcomes : List Bool) (sys : Sys)
    (a : Actor) : Nat → Nat → Sys × Option Actor × List TraceEv
  | _, 0 => (sys, none, [.raise])
  | attempt, remaining + 1 =>
    if outcomes.getD (attempt - 1) false then
      let a1 : Actor := { a with producer := true, consumer := true }
      (updateDocs sys name a1, some a1, [.success attempt])
    else if remaining = 0 then
      (destroyFinish sys name a.aid, none,
        [.attemptFailed attempt, .registryDelete name, .raise])
    else
      let r := initAttemptsGo name outcomes sys a (attempt + 1) remaining
      (r.1, r.2.1,
        .attemptFailed attempt :: .reconnect :: .sleep 1000 :: r.2.2)

/-- `getYDoc` as a whole (`src/server/utils.ts:301-452`): the synchronous
prefix followed by the retry loop. -/
def getYDocModel (sys : Sys) (name : String) (outcomes : List Bool) :
    Sys × Option Actor × List TraceEv :=
  match docsLookup name sys.docs with
  | some a => (sys, some a, [])
  | none =>
    let a : Actor := ⟨sys.nextId, false, false⟩
    let docs1 := sys.docs ++ [(name, a)]
    let sys1 : Sys := { sys with docs := docs1, nextId := sys.nextId + 1 }
    initAttemptsGo name outcomes sys1 a 1 MAX_RETRIES

/-- Number of creation attempts recorded in a trace. -/
def countAttempts (tr : List TraceEv) : Nat :=
  (tr.filter fun e => match e with
    | .attemptFailed _ => true
    | .success _ => true
    | _ => false).length

/-- Number of back-off sleeps recorded in a trace. -/
def countSleeps (tr : List TraceEv) : Nat :=
  (tr.filter fun e => match e with
    | .sleep _ => true
    | _ => false).length

/-- Every sleep recorded in a trace is the 1000 ms back-off. -/
def sleepsAre1000 (tr : List TraceEv) : Bool :=
  tr.all fun e => match e with
    | .sleep ms => ms == 1000
    | _ => true

/-- **C6.**  For every creation (`getYDoc` on a missing name): the loop
runs at most `MAX_RETRIES = 3` attempts, every back-off sleep is 1000 ms
and there is exactly one sleep between consecutive attempts; and when all
three attempts fail, the call returns the error, the trace is literally
three failures with two back-offs followed by the registry delete and then
the raise — so the name is gone from the registry *before* the error
surfaces — and the next `get` for the name constructs a fresh actor from
scratch. -/
theorem c6_creation_retry (sys : Sys) (name : String) (outcomes : List Bool)
    (h : docsLookup name sys.docs = none) :
    countAttempts (getYDocModel sys name outcomes).2.2 ≤ MAX_RETRIES ∧
    sleepsAre1000 (getYDocModel sys name outcomes).2.2 = true ∧
    countSleeps (getYDocModel sys name outcomes).2.2 =
      countAttempts (getYDocModel sys name outcomes).2.2 - 1 ∧
    (outcomes.getD 0 false = false → outcomes.getD 1 false = false →
      outcomes.getD 2 false = false →
      (getYDocModel sys name outcomes).2.1 = none ∧
      docsLookup name (getYDocModel sys name outcomes).1.docs = none ∧
      (getYDocModel sys name outcomes).2.2 =
        [.attemptFailed 1, .reconnect, .sleep 1000,
         .attemptFailed 2, .reconnect, .sleep 1000,
         .attemptFailed 3, .registryDelete name, .raise] ∧
      (getYDocPrefix (getYDocModel sys name outcomes).1 name).2 =
        .created ⟨(getYDocModel sys name outcomes).1.nextId, false,
          false⟩) := by
  have hunfold : getYDocModel sys name outcomes =
      initAttemptsGo name outcomes (getYDocPrefix sys name).1
        ⟨sys.nextId, false, false⟩ 1 MAX_RETRIES := by
    simp [getYDocModel, getYDocPrefix, h]
  by_cases h0 : outcomes.getD 0 false <;>
    by_cases h1 : outcomes.getD 1 false <;>
      by_cases h2 : outcomes.getD 2 false
  all_goals (
    rw [hunfold]
    simp only [MAX_RETRIES, initAttemptsGo, h0, h1, h2, if_true, if_false,
      Bool.false_eq_true, Nat.add_sub_cancel, Nat.sub_self]
    norm_num [countAttempts, countSleeps, sleepsAre1000])
  refine ⟨docsLookup_filter_self name _, ?_⟩
  have hnone : docsLookup name
      (destroyFinish (getYDocPrefix sys name).1 name sys.nextId).docs =
        none := docsLookup_filter_self name _
  rw [getYDocPrefix_absent _ _ hnone]

/-- Witness: `c6_creation_retry` on the empty registry with all three
attempts failing. -/
theorem c6_creation_retry_witness :
    (getYDocModel ⟨[], 0, []⟩ "d" [false, false, false]).2.2 =
      [.attemptFailed 1, .reconnect, .sleep 1000,
       .attemptFailed 2, .reconnect, .sleep 1000,
       .attemptFailed 3, .registryDelete "d", .raise] ∧
    docsLookup "d"
      (getYDocModel ⟨[], 0, []⟩ "d" [false, false, false]).1.docs =
      none := by
  obtain ⟨-, -, -, h4⟩ :=
    c6_creation_retry ⟨[], 0, []⟩ "d" [false, false, false] rfl
  obtain ⟨-, hb, hc, -⟩ := h4 rfl rfl rfl
  exact ⟨hc, hb⟩

/-!
## Snapshot storage and restore (`src/storage/pulsar-storage.ts`)

The S3 blob under `snapshots/{doc}.snapshot.json` is abstracted as a
`StoredBlob`: absent, non-JSON bytes, JSON of the wrong shape, or a
shape-valid `SnapshotRec`.  `Pulsar.MessageId` values are abstract `Nat`s;
whether `MessageId.deserialize` accepts the base64 string stored in a
record is the record's `lastMessageIdOk` field.  `Y.applyUpdate` follows
the file-level convention: it succeeds exactly on non-empty update bytes —
in particular the "reset" `Y.applyUpdate(ydoc, new Uint8Array(0))` in the
checkpoint-failure path of `getDoc` (line 222) throws, so that path falls
to the outer catch and `getDoc` returns `null`. -/

/-- A shape-valid stored snapshot record (`DocumentSnapshot`). -/
structure SnapshotRec where
  state : Bytes
  lastMessageIdOk : Bool
  lastMessageId : Nat
  messageCount : Nat
  timestamp : Nat
  deriving Repr, DecidableEq

/-- What `s3Storage.getDoc(snapshotKey)` plus `JSON.parse` plus the shape
validation can observe. -/
inductive StoredBlob where
  /-- No object under the snapshot key. -/
  | absent
  /-- An object whose bytes are not valid JSON (`JSON.parse` throws). -/
  | badJson
  /-- Valid JSON failing the `!snapshot.state || !snapshot.lastMessageId
  || typeof snapshot.messageCount !== 'number'` validation. -/
  | badShape
  /-- A shape-valid record. -/
  | record (r : SnapshotRec)
  deriving Repr, DecidableEq

/-- `PulsarStorage.loadSnapshot` (`src/storage/pulsar-storage.ts:63-95`):
absent returns `null`; a `JSON.parse` throw is caught and returns `null`;
a shape-validation failure logs and returns `null`; a shape-valid record
is returned.  In none of these cases is the snapshot cleared. -/
def loadSnapshot : StoredBlob → Option SnapshotRec
  | .absent => none
  | .badJson => none
  | .badShape => none
  | .record r => some r

/-- One outcome of `reader.readNext(timeout)` during replay: either a
timeout (the throw caught at line 270) or a message with its id and raw
payload. -/
inductive ReadEvent where
  | timeout
  | msg (mid : Nat) (data : Bytes)
  deriving Repr, DecidableEq

/-- State of the replay loop (`src/storage/pulsar-storage.ts:241-275`).
`ydoc` is the restore document's applied-update list; `folded` and
`lastFoldedId` are specification ghosts recording the `SYNC` bodies
actually applied and the id of the last one. -/
structure ReplayState where
  ydoc : List Bytes
  messageCount : Nat
  lastMessageId : Option Nat
  consecutiveTimeouts : Nat
  folded : List Bytes
  lastFoldedId : Option Nat
  consumed : List ReadEvent
  deriving Repr, DecidableEq

/-- Initial replay state over a base document. -/
def replayInit (doc0 : List Bytes) : ReplayState :=
  { ydoc := doc0, messageCount := 0, lastMessageId := none,
    consecutiveTimeouts := 0, folded := [], lastFoldedId := none,
    consumed := [] }

/-- One iteration body of the replay loop: a timeout increments the
consecutive-timeout counter; a received message resets it and records its
id, then is skipped if its payload or its body after the kind byte is
empty, applied and counted only when its kind byte is `0` (`SYNC`). -/
def replayStep (s : ReplayState) : ReadEvent → ReplayState
  | .timeout =>
    { s with consecutiveTimeouts := s.consecutiveTimeouts + 1,
             consumed := s.consumed ++ [.timeout] }
  | .msg mid data =>
    let s :=
      { s with consecutiveTimeouts := 0, lastMessageId := some mid,
               consumed := s.consumed ++ [.msg mid data] }
    match data with
    | [] => s
    | k :: update =>
      if update.isEmpty then s
      else if k = 0 then
        { s with ydoc := s.ydoc ++ [update],
                 messageCount := s.messageCount + 1,
                 folded := s.folded ++ [update],
                 lastFoldedId := some mid }
      else s

/-- The replay loop (`while (consecutiveTimeouts < MAX_TIMEOUTS &&
messageCount < this.snapshotInterval)`), driven by the finite list of
`readNext` outcomes; returns the final state and the unconsumed
outcomes. -/
def replayLoop (interval maxTimeouts : Nat) :
    List ReadEvent → ReplayState → ReplayState × List ReadEvent
  | [], s => (s, [])
  | e :: rest, s =>
    if s.consecutiveTimeouts < maxTimeouts ∧ s.messageCount < interval then
      replayLoop interval maxTimeouts rest (replayStep s e)
    else (s, e :: rest)

/-- `MAX_TIMEOUTS = process.env.NODE_ENV === 'test' ? 1 : 3`
(`src/storage/pulsar-storage.ts:243`). -/
def MAX_TIMEOUTS (isTest : Bool) : Nat := if isTest then 1 else 3

/-- The `SYNC` bodies among a list of read outcomes, in order — exactly
what the replay loop folds. -/
def syncFoldsOf : List ReadEvent → List Bytes
  | [] => []
  | .timeout :: r => syncFoldsOf r
  | .msg _ data :: r =>
    match data with
    | [] => syncFoldsOf r
    | k :: u =>
      if u.isEmpty then syncFoldsOf r
      else if k = 0 then u :: syncFoldsOf r
      else syncFoldsOf r

lemma syncFoldsOf_append (a b : List ReadEvent) :
    syncFoldsOf (a ++ b) = syncFoldsOf a ++ syncFoldsOf b := by
  induction a with
  | nil => simp [syncFoldsOf]
  | cons e r ih =>
    cases e with
    | timeout => simpa [syncFoldsOf] using ih
    | msg mid data =>
      cases data with
      | nil => simpa [syncFoldsOf] using ih
      | cons k u =>
        by_cases hu : u.isEmpty <;> by_cases hk : k = 0 <;>
          simp [syncFoldsOf, hu, hk, ih]

lemma replayStep_mc (s : ReplayState) (e : ReadEvent) :
    (replayStep s e).messageCount = s.messageCount ∨
    (replayStep s e).messageCount = s.messageCount + 1 := by
  cases e with
  | timeout => left; rfl
  | msg mid data =>
    cases data with
    | nil => left; rfl
    | cons k u =>
      by_cases hu : u.isEmpty
      · left; simp [replayStep, hu]
      · by_cases hk : k = 0
        · right; simp [replayStep, hu, hk]
        · left; simp [replayStep, hu, hk]

lemma replayStep_ct (s : ReplayState) (e : ReadEvent) :
    (replayStep s e).consecutiveTimeouts = s.consecutiveTimeouts + 1 ∨
    (replayStep s e).consecutiveTimeouts = 0 := by
  cases e with
  | timeout => left; rfl
  | msg mid data =>
    cases data with
    | nil => right; rfl
    | cons k u =>
      by_cases hu : u.isEmpty
      · right; simp [replayStep, hu]
      · by_cases hk : k = 0
        · right; simp [replayStep, hu, hk]
        · right; simp [replayStep, hu, hk]

lemma replayStep_consumed (s : ReplayState) (e : ReadEvent) :
    (replayStep s e).consumed = s.consumed ++ [e] := by
  cases e with
  | timeout => rfl
  | msg mid data =>
    cases data with
    | nil => rfl
    | cons k u =>
      by_cases hu : u.isEmpty
      · simp [replayStep, hu]
      · by_cases hk : k = 0
        · simp [replayStep, hu, hk]
        · simp [replayStep, hu, hk]

/-- Loop invariant of the replay: the document equals the base plus the
folded bodies, the counter counts the folds, and the folds are exactly the
`SYNC` bodies of the consumed read outcomes. -/
def ReplayInv (doc0 : List Bytes) (s : ReplayState) : Prop :=
  s.ydoc = doc0 ++ s.folded ∧ s.messageCount = s.folded.length ∧
    s.folded = syncFoldsOf s.consumed

lemma replayStep_preserves (doc0 : List Bytes) (s : ReplayState)
    (e : ReadEvent) (h : ReplayInv doc0 s) :
    ReplayInv doc0 (replayStep s e) := by
  obtain ⟨h1, h2, h3⟩ := h
  cases e with
  | timeout =>
    exact ⟨h1, h2, by simp [replayStep, syncFoldsOf_append, syncFoldsOf, h3]⟩
  | msg mid data =>
    cases data with
    | nil =>
      exact ⟨h1, h2,
        by simp [replayStep, syncFoldsOf_append, syncFoldsOf, h3]⟩
    | cons k u =>
      by_cases hu : u.isEmpty
      · refine ⟨by simpa [replayStep, hu] using h1,
          by simpa [replayStep, hu] using h2, ?_⟩
        simp [replayStep, hu, syncFoldsOf_append, syncFoldsOf, h3]
      · by_cases hk : k = 0
        · refine ⟨?_, ?_, ?_⟩
          · simp [replayStep, hu, hk, h1]
          · simp [replayStep, hu, hk, h2]
          · simp [replayStep, hu, hk, syncFoldsOf_append, syncFoldsOf, h3]
        · refine ⟨by simpa [replayStep, hu, hk] using h1,
            by simpa [replayStep, hu, hk] using h2, ?_⟩
          simp [replayStep, hu, hk, syncFoldsOf_append, syncFoldsOf, h3]

lemma replayLoop_preserves (interval maxTimeouts : Nat) (doc0 : List Bytes) :
    ∀ (evs : List ReadEvent) (s : ReplayState), ReplayInv doc0 s →
      ReplayInv doc0 (replayLoop interval maxTimeouts evs s).1 := by
  intro evs
  induction evs with
  | nil => intro s h; exact h
  | cons e rest ih =>
    intro s h
    simp only [replayLoop]
    split
    · exact ih _ (replayStep_preserves doc0 s e h)
    · exact h

lemma replayLoop_mc_le (interval maxTimeouts : Nat) :
    ∀ (evs : List ReadEvent) (s : ReplayState),
      s.messageCount ≤ interval →
      (replayLoop interval maxTimeouts evs s).1.messageCount ≤ interval := by
  intro evs
  induction evs with
  | nil => intro s h; exact h
  | cons e rest ih =>
    intro s h
    simp only [replayLoop]
    split
    · rename_i hg
      apply ih
      rcases replayStep_mc s e with he | he <;> omega
    · exact h

lemma replayLoop_ct_le (interval maxTimeouts : Nat) :
    ∀ (evs : List ReadEvent) (s : ReplayState),
      s.consecutiveTimeouts ≤ maxTimeouts →
      (replayLoop interval maxTimeouts evs s).1.consecutiveTimeouts ≤
        maxTimeouts := by
  intro evs
  induction evs with
  | nil => intro s h; exact h
  | cons e rest ih =>
    intro s h
    simp only [replayLoop]
    split
    · rename_i hg
      apply ih
      rcases replayStep_ct s e with he | he <;> omega
    · exact h

lemma replayLoop_stop (interval maxTimeouts : Nat) :
    ∀ (evs : List ReadEvent) (s : ReplayState),
      (replayLoop interval maxTimeouts evs s).2 ≠ [] →
      ¬ ((replayLoop interval maxTimeouts evs s).1.consecutiveTimeouts <
          maxTimeouts ∧
        (replayLoop interval maxTimeouts evs s).1.messageCount <
          interval) := by
  intro evs
  induction evs with
  | nil => intro s h; simp [replayLoop] at h
  | cons e rest ih =>
    intro s h
    by_cases hg : s.consecutiveTimeouts < maxTimeouts ∧
        s.messageCount < interval
    · simp only [replayLoop, if_pos hg] at h ⊢
      exact ih _ h
    · simp only [replayLoop, if_neg hg] at h ⊢
      exact hg

lemma replayLoop_consumed (interval maxTimeouts : Nat) :
    ∀ (evs : List ReadEvent) (s : ReplayState),
      (replayLoop interval maxTimeouts evs s).1.consumed ++
        (replayLoop interval maxTimeouts evs s).2 = s.consumed ++ evs := by
  intro evs
  induction evs with
  | nil => intro s; simp [replayLoop]
  | cons e rest ih =>
    intro s
    by_cases hg : s.consecutiveTimeouts < maxTimeouts ∧
        s.messageCount < interval
    · simp only [replayLoop, if_pos hg]
      rw [ih, replayStep_consumed]
      simp
    · simp only [replayLoop, if_neg hg]

/-- **C7.**  The replay loop of `PulsarStorage.getDoc`
(`src/storage/pulsar-storage.ts:241-275`), with the configured snapshot
interval `N` and `K = MAX_TIMEOUTS` (3 in production, 1 in test): it folds
at most `N` messages; whenever it stops with outcomes still unread it is
because the fold count reached `N` or the consecutive-timeout counter
reached `K`, whichever came first; only `SYNC` (kind byte `0`) bodies are
applied and counted — the final document is the base followed by exactly
the `SYNC` bodies of the consumed reads; and a replay that ends on
timeouts keeps everything folded so far (the same equation holds
unconditionally). -/
theorem c7_replay_termination (isTest : Bool) (interval : Nat)
    (doc0 : List Bytes) (evs : List ReadEvent) :
    (replayLoop interval (MAX_TIMEOUTS isTest) evs
      (replayInit doc0)).1.messageCount ≤ interval ∧
    ((replayLoop interval (MAX_TIMEOUTS isTest) evs
        (replayInit doc0)).2 ≠ [] →
      (replayLoop interval (MAX_TIMEOUTS isTest) evs
        (replayInit doc0)).1.messageCount = interval ∨
      (replayLoop interval (MAX_TIMEOUTS isTest) evs
        (replayInit doc0)).1.consecutiveTimeouts = MAX_TIMEOUTS isTest) ∧
    (replayLoop interval (MAX_TIMEOUTS isTest) evs
      (replayInit doc0)).1.ydoc =
      doc0 ++ syncFoldsOf (replayLoop interval (MAX_TIMEOUTS isTest) evs
        (replayInit doc0)).1.consumed ∧
    (replayLoop interval (MAX_TIMEOUTS isTest) evs
      (replayInit doc0)).1.messageCount =
      (syncFoldsOf (replayLoop interval (MAX_TIMEOUTS isTest) evs
        (replayInit doc0)).1.consumed).length ∧
    (replayLoop interval (MAX_TIMEOUTS isTest) evs
      (replayInit doc0)).1.consumed ++
      (replayLoop interval (MAX_TIMEOUTS isTest) evs
        (replayInit doc0)).2 = evs := by
  have hinv : ReplayInv doc0
      (replayLoop interval (MAX_TIMEOUTS isTest) evs (replayInit doc0)).1 :=
    replayLoop_preserves interval (MAX_TIMEOUTS isTest) doc0 evs
      (replayInit doc0) ⟨by simp [replayInit], rfl, rfl⟩
  obtain ⟨h1, h2, h3⟩ := hinv
  have hmc := replayLoop_mc_le interval (MAX_TIMEOUTS isTest) evs
    (replayInit doc0) (by simp [replayInit])
  have hct := replayLoop_ct_le interval (MAX_TIMEOUTS isTest) evs
    (replayInit doc0) (by simp [replayInit])
  have hcons := replayLoop_consumed interval (MAX_TIMEOUTS isTest) evs
    (replayInit doc0)
  refine ⟨hmc, ?_, by rw [h1, h3], by rw [h2, h3], by simpa using hcons⟩
  intro hne
  have := replayLoop_stop interval (MAX_TIMEOUTS isTest) evs
    (replayInit doc0) hne
  omega

/-- Witness: `c7_replay_termination` with interval 2 and a concrete
four-outcome read sequence in test mode — two folds (the awareness message
is skipped) then stop, one outcome unread. -/
theorem c7_replay_termination_witness :
    (replayLoop 2 (MAX_TIMEOUTS true)
      [.msg 1 [0, 5], .msg 2 [1, 9], .msg 3 [0, 6], .msg 4 [0, 7]]
      (replayInit [])).1.messageCount = 2 ∧
    (replayLoop 2 (MAX_TIMEOUTS true)
      [.msg 1 [0, 5], .msg 2 [1, 9], .msg 3 [0, 6], .msg 4 [0, 7]]
      (replayInit [])).1.ydoc = [[5], [6]] ∧
    (replayLoop 2 (MAX_TIMEOUTS true)
      [.msg 1 [0, 5], .msg 2 [1, 9], .msg 3 [0, 6], .msg 4 [0, 7]]
      (replayInit [])).2 = [.msg 4 [0, 7]] := by
  have h := c7_replay_termination true 2 []
    [.msg 1 [0, 5], .msg 2 [1, 9], .msg 3 [0, 6], .msg 4 [0, 7]]
  obtain ⟨-, h2, h3, -, -⟩ := h
  refine ⟨by decide, ?_, by decide⟩
  rw [h3]
  decide

/-- Model of `Y.encodeStateAsUpdate`: the yjs encoding of a document
carrying the given applied updates.  The empty document encodes as two
zero bytes (zero struct clients, empty delete set), so the encoding is
never empty — which makes the `finalState.length > 0` guard at
`src/storage/pulsar-storage.ts:304` always true. -/
def encodeStateAsUpdateM (updates : List Bytes) : Bytes :=
  0 :: 0 :: updates.flatten

/-- Observable outcome of one `PulsarStorage.getDoc` call
(`src/storage/pulsar-storage.ts:190-318`).  `cleared` counts
`clearSnapshot` invocations; `saved` is the snapshot written by step 5, as
`(state, checkpoint id, messageCount)`; `replayStart` is `some start` when
the replay reader was created (`start = none` meaning
`MessageId.earliest()`), `none` when the call aborted before creating it;
`lastFoldedId` is the ghost id of the last `SYNC` body folded. -/
structure RestoreResult where
  result : Option Bytes
  cleared : Nat
  saved : Option (Bytes × Nat × Nat)
  replayStart : Option (Option Nat)
  baseCount : Nat
  folded : Nat
  lastFoldedId : Option Nat
  deriving Repr, DecidableEq

/-- Steps 3–5 of `getDoc`: create the reader at `start`, run the replay
loop, then save a new snapshot if at least `interval` new messages were
folded and a message id was seen (`messageCount >= this.snapshotInterval
&& lastMessageId`, `src/storage/pulsar-storage.ts:299`), with
`messageCount = baseMessageCount + messageCount`. -/
def runReplay (interval maxTimeouts : Nat) (start : Option Nat)
    (base : Nat) (doc0 : List Bytes) (evs : List ReadEvent) :
    RestoreResult :=
  let s := (replayLoop interval maxTimeouts evs (replayInit doc0)).1
  let finalState := encodeStateAsUpdateM s.ydoc
  let saved :=
    if interval ≤ s.messageCount then
      match s.lastMessageId with
      | some mid => some (finalState, mid, base + s.messageCount)
      | none => none
    else none
  { result := if 0 < finalState.length then some finalState else none,
    cleared := 0, saved := saved, replayStart := some start,
    baseCount := base, folded := s.messageCount,
    lastFoldedId := s.lastFoldedId }

/-- `PulsarStorage.getDoc` (`src/storage/pulsar-storage.ts:190-318`):
load the snapshot; when absent or undecodable proceed from earliest with
an empty base; when shape-valid apply its state (a throw on empty state
bytes falls to the outer catch: `null`, nothing cleared); then try to
deserialise the checkpoint — on failure clear the snapshot once, reset the
counters, and attempt the empty-update reset, which throws
(`Y.applyUpdate` on zero bytes), so the call returns `null` without
replaying; otherwise replay from the checkpoint. -/
def getDocModel (interval maxTimeouts : Nat) (stored : StoredBlob)
    (evs : List ReadEvent) : RestoreResult :=
  match loadSnapshot stored with
  | none => runReplay interval maxTimeouts none 0 [] evs
  | some r =>
    if r.state.isEmpty then
      { result := none, cleared := 0, saved := none, replayStart := none,
        baseCount := 0, folded := 0, lastFoldedId := none }
    else if r.lastMessageIdOk then
      runReplay interval maxTimeouts (some r.lastMessageId) r.messageCount
        [r.state] evs
    else
      { result := none, cleared := 1, saved := none, replayStart := none,
        baseCount := 0, folded := 0, lastFoldedId := none }

/-- **C3 counterexample.**  A stored snapshot object holding non-JSON
bytes (spec scenario: `"not json"`): `loadSnapshot` catches the
`JSON.parse` throw and returns `null` without ever calling
`clearSnapshot`, so the snapshot object is cleared zero times — not
"exactly once" as the claim states. -/
theorem c3_malformed_snapshot_cex :
    (getDocModel 30 3 .badJson []).cleared = 0 ∧
    ¬ (getDocModel 30 3 .badJson []).cleared = 1 := by
  exact ⟨rfl, by decide⟩

/-- **C3 amended.**  A present-but-malformed snapshot record is handled in
two different ways (`src/storage/pulsar-storage.ts:63-95, 205-227`).  If
the JSON/shape decode fails, the snapshot is *not* cleared and the restore
proceeds exactly as if the snapshot were absent (replay from earliest,
empty base, base count zero).  If the record decodes but its checkpoint id
fails to deserialise, the snapshot *is* cleared exactly once — but the
restore then aborts (the empty-update reset throws into the outer catch)
and returns `null` with no replay and no snapshot write, rather than
replaying from earliest in the same call. -/
theorem c3_malformed_snapshot (interval maxTimeouts : Nat)
    (evs : List ReadEvent) :
    getDocModel interval maxTimeouts .badJson evs =
      getDocModel interval maxTimeouts .absent evs ∧
    getDocModel interval maxTimeouts .badShape evs =
      getDocModel interval maxTimeouts .absent evs ∧
    (getDocModel interval maxTimeouts .badJson evs).cleared = 0 ∧
    (getDocModel interval maxTimeouts .absent evs).replayStart =
      some none ∧
    (getDocModel interval maxTimeouts .absent evs).baseCount = 0 ∧
    (∀ r : SnapshotRec, r.state ≠ [] → r.lastMessageIdOk = false →
      (getDocModel interval maxTimeouts (.record r) evs).cleared = 1 ∧
      (getDocModel interval maxTimeouts (.record r) evs).result = none ∧
      (getDocModel interval maxTimeouts (.record r) evs).replayStart =
        none ∧
      (getDocModel interval maxTimeouts (.record r) evs).saved = none) := by
  refine ⟨rfl, rfl, rfl, rfl, rfl, ?_⟩
  intro r hstate hid
  have hne : r.state.isEmpty = false := by
    cases hs : r.state <;> simp_all
  refine ⟨?_, ?_, ?_, ?_⟩ <;>
    simp [getDocModel, loadSnapshot, hne, hid]

/-- Witness record for the checkpoint-failure path of C3. -/
def c3WitnessRec : SnapshotRec :=
  { state := [1, 2], lastMessageIdOk := false, lastMessageId := 0,
    messageCount := 120, timestamp := 0 }

/-- Witness: `c3_malformed_snapshot` at interval 30, a single-message read
list, and `c3WitnessRec` on the checkpoint-failure path. -/
theorem c3_malformed_snapshot_witness :
    getDocModel 30 3 .badJson [.msg 1 [0, 5]] =
      getDocModel 30 3 .absent [.msg 1 [0, 5]] ∧
    (getDocModel 30 3 (.record c3WitnessRec) [.msg 1 [0, 5]]).cleared = 1 ∧
    (getDocModel 30 3 (.record c3WitnessRec) [.msg 1 [0, 5]]).result =
      none := by
  obtain ⟨h1, -, -, -, -, h6⟩ :=
    c3_malformed_snapshot 30 3 [.msg 1 [0, 5]]
  obtain ⟨ha, hb, -, -⟩ := h6 c3WitnessRec (by decide) rfl
  exact ⟨h1, ha, hb⟩

lemma replayStep_checkpoint (interval : Nat) (s : ReplayState)
    (e : ReadEvent) (hmc : s.messageCount < interval) :
    interval ≤ (replayStep s e).messageCount →
      (replayStep s e).lastMessageId = (replayStep s e).lastFoldedId ∧
      (replayStep s e).lastFoldedId ≠ none := by
  intro habs
  cases e with
  | timeout =>
    exfalso
    simp [replayStep] at habs
    omega
  | msg mid data =>
    cases data with
    | nil =>
      exfalso
      simp [replayStep] at habs
      omega
    | cons k u =>
      by_cases hu : u.isEmpty
      · exfalso
        simp [replayStep, hu] at habs
        omega
      · by_cases hk : k = 0
        · constructor <;> simp [replayStep, hu, hk]
        · exfalso
          simp [replayStep, hu, hk] at habs
          omega

lemma replayLoop_checkpoint (interval maxTimeouts : Nat) :
    ∀ (evs : List ReadEvent) (s : ReplayState),
      (interval ≤ s.messageCount →
        s.lastMessageId = s.lastFoldedId ∧ s.lastFoldedId ≠ none) →
      interval ≤ (replayLoop interval maxTimeouts evs s).1.messageCount →
        (replayLoop interval maxTimeouts evs s).1.lastMessageId =
          (replayLoop interval maxTimeouts evs s).1.lastFoldedId ∧
        (replayLoop interval maxTimeouts evs s).1.lastFoldedId ≠ none := by
  intro evs
  induction evs with
  | nil => intro s h; exact h
  | cons e rest ih =>
    intro s h
    by_cases hg : s.consecutiveTimeouts < maxTimeouts ∧
        s.messageCount < interval
    · simp only [replayLoop, if_pos hg]
      exact ih _ (replayStep_checkpoint interval s e hg.2)
    · simp only [replayLoop, if_neg hg]
      exact h

lemma runReplay_folded (i k : Nat) (st : Option Nat) (b : Nat)
    (d : List Bytes) (evs : List ReadEvent) :
    (runReplay i k st b d evs).folded =
      (replayLoop i k evs (replayInit d)).1.messageCount := rfl

lemma runReplay_base (i k : Nat) (st : Option Nat) (b : Nat)
    (d : List Bytes) (evs : List ReadEvent) :
    (runReplay i k st b d evs).baseCount = b := rfl

lemma runReplay_lastFolded (i k : Nat) (st : Option Nat) (b : Nat)
    (d : List Bytes) (evs : List ReadEvent) :
    (runReplay i k st b d evs).lastFoldedId =
      (replayLoop i k evs (replayInit d)).1.lastFoldedId := rfl

lemma runReplay_saved (i k : Nat) (st : Option Nat) (b : Nat)
    (d : List Bytes) (evs : List ReadEvent) :
    (runReplay i k st b d evs).saved =
      (if i ≤ (replayLoop i k evs (replayInit d)).1.messageCount then
        match (replayLoop i k evs (replayInit d)).1.lastMessageId with
        | some mid =>
          some (encodeStateAsUpdateM (replayLoop i k evs
              (replayInit d)).1.ydoc,
            mid, b + (replayLoop i k evs (replayInit d)).1.messageCount)
        | none => none
      else none) := rfl

lemma runReplay_result (i k : Nat) (st : Option Nat) (b : Nat)
    (d : List Bytes) (evs : List ReadEvent) :
    (runReplay i k st b d evs).result =
      some (encodeStateAsUpdateM
        (replayLoop i k evs (replayInit d)).1.ydoc) := by
  have h : 0 < (encodeStateAsUpdateM
      (replayLoop i k evs (replayInit d)).1.ydoc).length := by
    simp [encodeStateAsUpdateM]
  simp only [runReplay, if_pos h]

/-- **C8.**  The snapshot write of `PulsarStorage.getDoc`
(`src/storage/pulsar-storage.ts:292-302` and `saveSnapshot`, 118-140), for
any positive snapshot interval: whenever at least `interval` new messages
were folded, a snapshot is written whose state is the restored document's
encoding (also the value `getDoc` returns), whose checkpoint is the id of
the last folded `SYNC` message, and whose count is the loaded base count
plus the folded count; and for any restore that loaded a shape-valid
record, any snapshot it writes carries a count at least the loaded one —
so counts are monotonically non-decreasing across successive snapshots of
a document. -/
theorem c8_snapshot_write (interval maxTimeouts : Nat)
    (stored : StoredBlob) (evs : List ReadEvent) (hpos : 1 ≤ interval) :
    (interval ≤ (getDocModel interval maxTimeouts stored evs).folded →
      ∃ st mid,
        (getDocModel interval maxTimeouts stored evs).saved =
          some (st, mid,
            (getDocModel interval maxTimeouts stored evs).baseCount +
            (getDocModel interval maxTimeouts stored evs).folded) ∧
        (getDocModel interval maxTimeouts stored evs).result = some st ∧
        some mid =
          (getDocModel interval maxTimeouts stored evs).lastFoldedId) ∧
    (∀ r : SnapshotRec, stored = .record r →
      ∀ st mid cnt,
        (getDocModel interval maxTimeouts stored evs).saved =
          some (st, mid, cnt) →
        r.messageCount ≤ cnt) := by
  have key : ∀ (start : Option Nat) (base : Nat) (doc0 : List Bytes),
      (interval ≤ (runReplay interval maxTimeouts start base doc0
          evs).folded →
        ∃ st mid,
          (runReplay interval maxTimeouts start base doc0 evs).saved =
            some (st, mid,
              (runReplay interval maxTimeouts start base doc0
                evs).baseCount +
              (runReplay interval maxTimeouts start base doc0
                evs).folded) ∧
          (runReplay interval maxTimeouts start base doc0 evs).result =
            some st ∧
          some mid =
            (runReplay interval maxTimeouts start base doc0
              evs).lastFoldedId) ∧
      (∀ st mid cnt,
        (runReplay interval maxTimeouts start base doc0 evs).saved =
          some (st, mid, cnt) → base ≤ cnt) := by
    intro start base doc0
    have hpre : interval ≤ (replayInit doc0).messageCount →
        (replayInit doc0).lastMessageId = (replayInit doc0).lastFoldedId ∧
          (replayInit doc0).lastFoldedId ≠ none := by
      intro habs
      exfalso
      simp [replayInit] at habs
      omega
    have hq := replayLoop_checkpoint interval maxTimeouts evs
      (replayInit doc0) hpre
    constructor
    · intro hfold
      rw [runReplay_folded] at hfold
      obtain ⟨hid, hne⟩ := hq hfold
      match hmid : (replayLoop interval maxTimeouts evs
          (replayInit doc0)).1.lastMessageId with
      | none =>
        exfalso
        rw [hmid] at hid
        exact hne hid.symm
      | some mid =>
        refine ⟨encodeStateAsUpdateM (replayLoop interval maxTimeouts evs
          (replayInit doc0)).1.ydoc, mid, ?_, ?_, ?_⟩
        · rw [runReplay_saved, if_pos hfold, hmid, runReplay_base,
            runReplay_folded]
        · rw [runReplay_result]
        · rw [runReplay_lastFolded, ← hid, hmid]
    · intro st mid cnt hsaved
      rw [runReplay_saved] at hsaved
      by_cases hle : interval ≤ (replayLoop interval maxTimeouts evs
          (replayInit doc0)).1.messageCount
      · rw [if_pos hle] at hsaved
        match hmid : (replayLoop interval maxTimeouts evs
            (replayInit doc0)).1.lastMessageId with
        | none => rw [hmid] at hsaved; simp at hsaved
        | some mid2 =>
          rw [hmid] at hsaved
          simp only [Option.some.injEq, Prod.mk.injEq] at hsaved
          omega
      · rw [if_neg hle] at hsaved
        simp at hsaved
  match stored with
  | .absent => exact ⟨(key none 0 []).1, fun r hr => by cases hr⟩
  | .badJson => exact ⟨(key none 0 []).1, fun r hr => by cases hr⟩
  | .badShape => exact ⟨(key none 0 []).1, fun r hr => by cases hr⟩
  | .record r =>
    by_cases hstate : r.state.isEmpty
    · have hmodel : getDocModel interval maxTimeouts (.record r) evs =
          { result := none, cleared := 0, saved := none,
            replayStart := none, baseCount := 0, folded := 0,
            lastFoldedId := none } := by
        simp [getDocModel, loadSnapshot, hstate]
      rw [hmodel]
      constructor
      · intro habs
        exfalso
        simp at habs
        omega
      · intro r2 hr2 st mid cnt hsaved
        simp at hsaved
    · by_cases hid : r.lastMessageIdOk
      · have hmodel : getDocModel interval maxTimeouts (.record r) evs =
            runReplay interval maxTimeouts (some r.lastMessageId)
              r.messageCount [r.state] evs := by
          simp [getDocModel, loadSnapshot, hstate, hid]
        rw [hmodel]
        refine ⟨(key (some r.lastMessageId) r.messageCount [r.state]).1,
          ?_⟩
        intro r2 hr2 st mid cnt hsaved
        have hr : r = r2 := by injection hr2
        subst hr
        exact (key (some r.lastMessageId) r.messageCount
          [r.state]).2 st mid cnt hsaved
      · have hmodel : getDocModel interval maxTimeouts (.record r) evs =
            { result := none, cleared := 1, saved := none,
              replayStart := none, baseCount := 0, folded := 0,
              lastFoldedId := none } := by
          simp [getDocModel, loadSnapshot, hstate, hid]
        rw [hmodel]
        constructor
        · intro habs
          exfalso
          simp at habs
          omega
        · intro r2 hr2 st mid cnt hsaved
          simp at hsaved

/-- Witness record for the C8 theorem: a loaded snapshot with count 100
and a deserialisable checkpoint. -/
def c8WitnessRec : SnapshotRec :=
  { state := [1], lastMessageIdOk := true, lastMessageId := 4,
    messageCount := 100, timestamp := 0 }

/-- Witness: `c8_snapshot_write` with interval 1 — one folded `SYNC`
message (id 9) triggers a snapshot write with count `100 + 1`. -/
theorem c8_snapshot_write_witness :
    ∃ st mid,
      (getDocModel 1 3 (.record c8WitnessRec) [.msg 9 [0, 5]]).saved =
        some (st, mid, 101) ∧
      some mid =
        (getDocModel 1 3 (.record c8WitnessRec)
          [.msg 9 [0, 5]]).lastFoldedId := by
  obtain ⟨h1, -⟩ :=
    c8_snapshot_write 1 3 (.record c8WitnessRec) [.msg 9 [0, 5]]
      (by decide)
  obtain ⟨st, mid, hsaved, -, hmid⟩ := h1 (by decide)
  refine ⟨st, mid, ?_, hmid⟩
  have hbase : (getDocModel 1 3 (.record c8WitnessRec)
      [.msg 9 [0, 5]]).baseCount = 100 := by decide
  have hfold : (getDocModel 1 3 (.record c8WitnessRec)
      [.msg 9 [0, 5]]).folded = 1 := by decide
  rw [hbase, hfold] at hsaved
  exact hsaved
